import Mathlib

/-!
Shallow embedding of `src/main.py` of pa-permission-dead-account-remover.

The program walks a directory tree (`os.walk`), and for every regular file
either reports (audit mode, `check_permissions`, lines 124-157) or claims to
remove (`remove_permissions`, lines 160-189) permissions of revoked users.
The per-file "permission" test in both passes is the placeholder
`any(user.lower() in filepath.lower() for user in users)` (lines 150 and 182):
a case-insensitive substring test of the user name against the full file path.
`remove_permissions` performs no mutation at all: the only state-changing call
(`os.chmod`, line 187) is commented out; its body only prints and logs.

Modelling choices:
  * Strings are Lean `String`s; Python `str.lower` is modelled for ASCII
    letters (the only case Python's `lower` and this model must agree on for
    the inputs in scope), and Python's `in` as contiguous-sublist containment
    on character lists.
  * `os.walk(top)` (topdown, default) is modelled by `walk` over an explicit
    tree whose lists record the order in which the operating system enumerates
    directory entries; `os.walk` yields each directory's `(root, files)` pair
    before descending into its subdirectories, in enumeration order, and the
    code sorts nothing.
  * The pathspec exclusion object is external library state; it is modelled
    as an abstract predicate `String → Bool`, absent (`none`) when no exclude
    file was supplied, mirroring `if exclude_spec and
    exclude_spec.match_file(filepath)` (lines 142 and 174).
  * The `try/except` around each file's body (lines 146-155 and 178-189) may
    catch an exception raised while processing that file.  The fallible
    computation is the same expression in both passes, applied to the same
    path, so a run is parameterised by an error oracle `eo : String → Bool`
    telling which file paths raise; an entry that raises contributes only an
    error log event and the loop continues.
  * Logging and printing are modelled as an emitted list of `LogEvent`s;
    the filesystem permission state is an explicit `FS` value threaded
    through the passes, so that mutation (or its absence) is observable.
  * `sys.exit(1)` on a setup failure (unreadable user file, unreadable
    exclude file, invalid root directory, lines 208-233) is the
    `MainResult.exitSetup` outcome, which carries the untouched filesystem,
    no matched files and no traversal events.
-/

namespace PA

/-- Python `str.lower` on one character, for the ASCII range:
uppercase letters map to lowercase, everything else is unchanged. -/
def lowerChar (c : Char) : Char :=
  if 65 ≤ c.toNat ∧ c.toNat ≤ 90 then Char.ofNat (c.toNat + 32) else c

/-- `s.lower()` as a character list. -/
def lowerStr (s : String) : List Char :=
  s.data.map lowerChar

/-- `needle` is a prefix of `haystack` (character lists). -/
def listLeads : List Char → List Char → Bool
  | [], _ => true
  | _ :: _, [] => false
  | a :: as, b :: bs => a == b && listLeads as bs

/-- Python's `needle in haystack` on strings: `needle` occurs as a
contiguous substring of `haystack` (the empty needle always occurs). -/
def listWithin (needle : List Char) : List Char → Bool
  | [] => needle.isEmpty
  | c :: rest => listLeads needle (c :: rest) || listWithin needle rest

/-- The placeholder permission test of `main.py` lines 150 and 182:
`any(user.lower() in filepath.lower() for user in users)`. -/
def hasPermissions (users : List String) (filepath : String) : Bool :=
  users.any (fun u => listWithin (lowerStr u) (lowerStr filepath))

/-- Whether a string ends with a path separator (used by `osJoin`). -/
def endsSlash (s : String) : Bool :=
  match s.data.getLast? with
  | some c => c == '/'
  | none => false

/-- `os.path.join(root, f)` for the shapes that occur during a walk:
`f` is a bare entry name (never absolute), so the result is `root`
followed by `f`, with exactly one separator between them. -/
def osJoin (root f : String) : String :=
  if root = "" then f else if endsSlash root then root ++ f else root ++ "/" ++ f

mutual
/-- A directory tree.  `node files subdirs`: the regular files of the
directory and its subdirectories, both in the order in which the operating
system enumerates them (the order `os.scandir`, hence `os.walk`, reports). -/
inductive Tree where
  | node : List String → Forest → Tree
/-- A list of named subdirectories in enumeration order. -/
inductive Forest where
  | fnil : Forest
  | fcons : String → Tree → Forest → Forest
end

mutual
/-- `os.walk(top)` with default `topdown=True`: yields the `(root, files)`
pair of each directory, parents before children, children in enumeration
order.  The `dirs` component of Python's triple is dropped because
`main.py` binds it to `_` (lines 137 and 169). -/
def walk : String → Tree → List (String × List String)
  | top, .node files sub => (top, files) :: walkForest top sub
def walkForest : String → Forest → List (String × List String)
  | _, .fnil => []
  | top, .fcons n t rest => walk (osJoin top n) t ++ walkForest top rest
end

/-- The file paths `os.path.join(root, file)` produced by the two nested
loops of either pass, in processing order (lines 137-139 and 169-171). -/
def walkFiles (w : List (String × List String)) : List String :=
  w.foldr (fun rf acc => rf.2.map (osJoin rf.1) ++ acc) []

mutual
/-- Specification-level description of the visit order: a depth-first
enumeration of file paths, each directory's files first (in enumeration
order), then the contents of its subdirectories in enumeration order. -/
def dfsPaths : String → Tree → List String
  | top, .node files sub => files.map (osJoin top) ++ dfsForest top sub
def dfsForest : String → Forest → List String
  | _, .fnil => []
  | top, .fcons n t rest => dfsPaths (osJoin top n) t ++ dfsForest top rest
end

/-- Observable logging/printing events of one run. -/
inductive LogEvent where
  /-- `logging.debug("Skipping excluded path: ...")`, lines 143 and 175. -/
  | skipExcluded : String → LogEvent
  /-- `logging.info("User(s) found with permissions for file: ...")`, line 153. -/
  | foundPerm : String → LogEvent
  /-- `logging.error("Error checking permissions for ...")`, line 155. -/
  | checkError : String → LogEvent
  /-- `print`/`logging.info("Removing permissions for users ... from ...")`,
  lines 183-184. -/
  | removing : List String → String → LogEvent
  /-- `logging.error("Error removing permissions for ...")`, line 189. -/
  | removeError : String → LogEvent
deriving DecidableEq

/-- `exclude_spec and exclude_spec.match_file(filepath)` (lines 142, 174):
with no spec loaded the guard is false for every path. -/
def matchExcluded (exSpec : Option (String → Bool)) (p : String) : Bool :=
  match exSpec with
  | none => false
  | some f => f p

/-- The grant check of line 150 runs on a file iff the exclusion guard of
line 142 did not fire. -/
def scansGrants (exSpec : Option (String → Bool)) (p : String) : Bool :=
  !(matchExcluded exSpec p)

/-- Componentwise append of (matched files, log events) contributions. -/
def pairApp (a b : List String × List LogEvent) : List String × List LogEvent :=
  (a.1 ++ b.1, a.2 ++ b.2)

/-- The body of `check_permissions`'s inner loop for one file path
(lines 141-155): skip if excluded; otherwise run the guarded block, which
either raises (error oracle `eo`), appends the path when the placeholder
test matches, or does nothing. -/
def checkFile (users : List String) (exSpec : Option (String → Bool))
    (eo : String → Bool) (filepath : String) : List String × List LogEvent :=
  if matchExcluded exSpec filepath then
    ([], [LogEvent.skipExcluded filepath])
  else if eo filepath then
    ([], [LogEvent.checkError filepath])
  else if hasPermissions users filepath then
    ([filepath], [LogEvent.foundPerm filepath])
  else
    ([], [])

/-- `check_permissions` over an explicit list of file paths in visit order:
returns the `files_with_permissions` list and the emitted log events. -/
def checkFiles (users : List String) (exSpec : Option (String → Bool))
    (eo : String → Bool) : List String → List String × List LogEvent
  | [] => ([], [])
  | fp :: rest => pairApp (checkFile users exSpec eo fp) (checkFiles users exSpec eo rest)

/-- The body of `remove_permissions`'s inner loop for one file path
(lines 173-189).  Note that on a match the code only prints and logs:
the actual removal (`os.chmod`, line 187) is commented out. -/
def removeFile (users : List String) (exSpec : Option (String → Bool))
    (eo : String → Bool) (filepath : String) : List LogEvent :=
  if matchExcluded exSpec filepath then
    [LogEvent.skipExcluded filepath]
  else if eo filepath then
    [LogEvent.removeError filepath]
  else if hasPermissions users filepath then
    [LogEvent.removing users filepath]
  else
    []

/-- `remove_permissions` over an explicit list of file paths in visit order. -/
def removeFiles (users : List String) (exSpec : Option (String → Bool))
    (eo : String → Bool) : List String → List LogEvent
  | [] => []
  | fp :: rest => removeFile users exSpec eo fp ++ removeFiles users exSpec eo rest

/-- A grant: (principal, permission kind) attached to a path. -/
abbrev Grant := String × String

/-- The filesystem as the two passes can observe or affect it: the
directory tree read by `os.walk`, and the native permission state
(grants per path).  No statement in either pass's body writes either
component: the one mutating call in the source is commented out. -/
structure FS where
  tree : Tree
  perms : String → List Grant

/-- `check_permissions` with the filesystem state threaded through each
loop iteration.  The iteration body (lines 141-155) contains no
state-changing call, so the state passed on to the remaining iterations
is the incoming state. -/
def checkFilesFS (users : List String) (exSpec : Option (String → Bool))
    (eo : String → Bool) : List String → FS → (List String × List LogEvent) × FS
  | [], fs => (([], []), fs)
  | fp :: rest, fs =>
    let k := checkFilesFS users exSpec eo rest fs
    (pairApp (checkFile users exSpec eo fp) k.1, k.2)

/-- `remove_permissions` with the filesystem state threaded through each
loop iteration.  The iteration body (lines 173-189) contains no
state-changing call either — the `os.chmod` at line 187 is commented
out — so the state passed on is the incoming state. -/
def removeFilesFS (users : List String) (exSpec : Option (String → Bool))
    (eo : String → Bool) : List String → FS → List LogEvent × FS
  | [], fs => ([], fs)
  | fp :: rest, fs =>
    let k := removeFilesFS users exSpec eo rest fs
    (removeFile users exSpec eo fp ++ k.1, k.2)

/-- `check_permissions(directory, users, exclude_spec)` (lines 124-157)
acting on the filesystem `fs`. -/
def checkPermissionsFS (fs : FS) (directory : String) (users : List String)
    (exSpec : Option (String → Bool)) (eo : String → Bool) :
    (List String × List LogEvent) × FS :=
  checkFilesFS users exSpec eo (walkFiles (walk directory fs.tree)) fs

/-- `remove_permissions(directory, users, exclude_spec)` (lines 160-189)
acting on the filesystem `fs`. -/
def removePermissionsFS (fs : FS) (directory : String) (users : List String)
    (exSpec : Option (String → Bool)) (eo : String → Bool) :
    List LogEvent × FS :=
  removeFilesFS users exSpec eo (walkFiles (walk directory fs.tree)) fs

/-- Python `str.strip()`: drop leading and trailing whitespace
(space, tab, newline, carriage return, vertical tab, form feed). -/
def isSpaceChar (c : Char) : Bool :=
  c == ' ' || c == '\t' || c == '\n' || c == '\r' || c.toNat == 11 || c.toNat == 12

/-- `line.strip()` of Python, over the character data. -/
def pyStrip (s : String) : String :=
  String.mk (((s.data.dropWhile isSpaceChar).reverse.dropWhile isSpaceChar).reverse)

/-- `[line.strip() for line in f if line.strip()]` (lines 87 and 113):
strip every line, keep the non-empty results. -/
def stripLines (ls : List String) : List String :=
  (ls.map pyStrip).filter (fun l => l != "")

/-- Command-line arguments of one invocation (after parsing). -/
structure Args where
  directory : String
  usersFile : String
  removeFlag : Bool
  excludeFile : Option String

/-- The environment a run executes in: which files are readable and their
lines (`none` models `FileNotFoundError`/`IOError`), which paths are
directories (`os.path.isdir`), the filesystem tree and permission state,
and the per-entry error oracle. -/
structure World where
  readLines : String → Option (List String)
  isDir : String → Bool
  fs : FS
  eo : String → Bool

/-- `load_users` (lines 71-94): read the user file and strip its lines;
a read failure propagates (and `main` then exits). -/
def loadUsers (w : World) (path : String) : Option (List String) :=
  (w.readLines path).map stripLines

/-- `load_excludes` (lines 97-121): read the exclude file, strip its
lines, and compile them with `pathspec.PathSpec.from_lines("gitwildmatch", ...)`;
the pathspec library is external, so compilation is an abstract
parameter `compile` from pattern lines to a path predicate. -/
def loadExcludes (compile : List String → String → Bool) (w : World)
    (path : String) : Option (String → Bool) :=
  (w.readLines path).map (fun ls => compile (stripLines ls))

/-- Outcome of `main` (lines 192-249).  `exitSetup` is `sys.exit(1)` from a
setup failure; it carries the untouched filesystem and, by shape, no
matched files and no traversal events.  `auditDone` carries
`files_with_permissions`, the traversal log and the final filesystem;
`removeDone` the traversal log and the final filesystem. -/
inductive MainResult where
  | exitSetup : FS → MainResult
  | auditDone : List String → List LogEvent → FS → MainResult
  | removeDone : List LogEvent → FS → MainResult

/-- The tail of `main` after users and exclude spec are loaded
(lines 230-249): validate the root directory, then dispatch on the mode
flag. -/
def mainAfterSetup (w : World) (a : Args) (users : List String)
    (exSpec : Option (String → Bool)) : MainResult :=
  if !(w.isDir a.directory) then
    MainResult.exitSetup w.fs
  else if a.removeFlag then
    let r := removePermissionsFS w.fs a.directory users exSpec w.eo
    MainResult.removeDone r.1 r.2
  else
    let r := checkPermissionsFS w.fs a.directory users exSpec w.eo
    MainResult.auditDone r.1.1 r.1.2 r.2

/-- `main` (lines 192-249): load the users (exit 1 on failure), load the
exclude spec when an exclude file was given (exit 1 on failure), then
validate the root and run the selected pass. -/
def mainRun (compile : List String → String → Bool) (w : World) (a : Args) :
    MainResult :=
  match loadUsers w a.usersFile with
  | none => MainResult.exitSetup w.fs
  | some users =>
    match a.excludeFile with
    | none => mainAfterSetup w a users none
    | some ef =>
      match loadExcludes compile w ef with
      | none => MainResult.exitSetup w.fs
      | some sp => mainAfterSetup w a users (some sp)

/-- Number of excluded-path skip events in a log (the run's record of how
many entries the exclusion matcher removed from consideration). -/
def countSkip (evs : List LogEvent) : Nat :=
  evs.countP (fun e => match e with | LogEvent.skipExcluded _ => true | _ => false)

/-- The paths the removal pass acted on: those it announced
"Removing permissions ... from <path>" for. -/
def actedPaths (evs : List LogEvent) : List String :=
  evs.filterMap (fun e => match e with | LogEvent.removing _ p => some p | _ => none)

/-! ## Concrete fixtures -/

/-- A run environment with no per-entry errors. -/
def noErr : String → Bool := fun _ => false

/-- An error oracle under which processing the path `r/err.txt` raises. -/
def eoX : String → Bool := fun p => p == "r/err.txt"

/-- One directory `r` containing `alice.txt` and `other.txt` (in that
enumeration order), with one grant for principal `alice` on `r/alice.txt`. -/
def fsAlice : FS :=
  { tree := Tree.node ["alice.txt", "other.txt"] Forest.fnil,
    perms := fun p => if p = "r/alice.txt" then [("alice", "owner")] else [] }

/-- An exclusion spec whose single pattern matches exactly `r/skip.tmp`. -/
def exTmp : Option (String → Bool) := some (fun p => p == "r/skip.tmp")

/-- A world in which no file is readable (the user file read fails). -/
def worldNoUsers : World :=
  { readLines := fun _ => none, isDir := fun _ => true, fs := fsAlice, eo := noErr }

/-- A world in which `users.txt` is readable but the exclude file is not. -/
def worldExcludeBad : World :=
  { readLines := fun p => if p = "users.txt" then some ["alice"] else none,
    isDir := fun _ => true, fs := fsAlice, eo := noErr }

/-- A world in which `users.txt` is readable and every path is a directory. -/
def worldUsersOk : World :=
  { readLines := fun p => if p = "users.txt" then some ["alice"] else none,
    isDir := fun _ => true, fs := fsAlice, eo := noErr }

/-- A world in which files are readable but no path is a directory. -/
def worldNoDir : World :=
  { readLines := fun _ => some ["alice"], isDir := fun _ => false,
    fs := fsAlice, eo := noErr }

/-- Audit-mode arguments with no exclude file. -/
def argsPlain : Args :=
  { directory := "r", usersFile := "users.txt", removeFlag := false,
    excludeFile := none }

/-- Audit-mode arguments naming an exclude file. -/
def argsExclude : Args :=
  { directory := "r", usersFile := "users.txt", removeFlag := false,
    excludeFile := some "ex.txt" }

/-! ## Helper lemmas -/

theorem pairApp_nil_left (b : List String × List LogEvent) : pairApp ([], []) b = b := by
  simp [pairApp]

theorem pairApp_assoc (a b c : List String × List LogEvent) :
    pairApp (pairApp a b) c = pairApp a (pairApp b c) := by
  simp [pairApp]

theorem checkFiles_append (users : List String) (exSpec : Option (String → Bool))
    (eo : String → Bool) (xs ys : List String) :
    checkFiles users exSpec eo (xs ++ ys)
      = pairApp (checkFiles users exSpec eo xs) (checkFiles users exSpec eo ys) := by
  induction xs with
  | nil => simp [checkFiles, pairApp_nil_left]
  | cons fp rest ih => simp [checkFiles, ih, pairApp_assoc]

theorem removeFiles_append (users : List String) (exSpec : Option (String → Bool))
    (eo : String → Bool) (xs ys : List String) :
    removeFiles users exSpec eo (xs ++ ys)
      = removeFiles users exSpec eo xs ++ removeFiles users exSpec eo ys := by
  induction xs with
  | nil => simp [removeFiles]
  | cons fp rest ih => simp [removeFiles, ih]

theorem checkFile_fst_eq (users : List String) (exSpec : Option (String → Bool))
    (eo : String → Bool) (fp : String) :
    (checkFile users exSpec eo fp).1
      = if matchExcluded exSpec fp = false ∧ eo fp = false
           ∧ hasPermissions users fp = true
        then [fp] else [] := by
  cases h1 : matchExcluded exSpec fp <;> cases h2 : eo fp <;>
    cases h3 : hasPermissions users fp <;> simp [checkFile, h1, h2, h3]

theorem mem_checkFiles_fst (users : List String) (exSpec : Option (String → Bool))
    (eo : String → Bool) (fps : List String) (p : String)
    (h : p ∈ (checkFiles users exSpec eo fps).1) :
    p ∈ fps ∧ matchExcluded exSpec p = false := by
  induction fps with
  | nil => simp [checkFiles] at h
  | cons fp rest ih =>
    simp only [checkFiles, pairApp] at h
    rcases List.mem_append.mp h with h1 | h2
    · rw [checkFile_fst_eq] at h1
      split at h1
      · rename_i hc
        simp at h1
        subst h1
        exact ⟨List.mem_cons_self _ _, hc.1⟩
      · simp at h1
    · rcases ih h2 with ⟨hm, hex⟩
      exact ⟨List.mem_cons_of_mem _ hm, hex⟩

theorem countSkip_append (a b : List LogEvent) :
    countSkip (a ++ b) = countSkip a + countSkip b := by
  simp [countSkip, List.countP_append]

theorem countSkip_checkFile (users : List String) (exSpec : Option (String → Bool))
    (eo : String → Bool) (fp : String) :
    countSkip (checkFile users exSpec eo fp).2
      = if matchExcluded exSpec fp = true then 1 else 0 := by
  cases h1 : matchExcluded exSpec fp <;> cases h2 : eo fp <;>
    cases h3 : hasPermissions users fp <;> simp [checkFile, countSkip, h1, h2, h3]

theorem countSkip_removeFile (users : List String) (exSpec : Option (String → Bool))
    (eo : String → Bool) (fp : String) :
    countSkip (removeFile users exSpec eo fp)
      = if matchExcluded exSpec fp = true then 1 else 0 := by
  cases h1 : matchExcluded exSpec fp <;> cases h2 : eo fp <;>
    cases h3 : hasPermissions users fp <;> simp [removeFile, countSkip, h1, h2, h3]

theorem countSkip_checkFiles (users : List String) (exSpec : Option (String → Bool))
    (eo : String → Bool) (fps : List String) :
    countSkip (checkFiles users exSpec eo fps).2
      = List.countP (fun q => matchExcluded exSpec q) fps := by
  induction fps with
  | nil => simp [checkFiles, countSkip]
  | cons fp rest ih =>
    simp only [checkFiles, pairApp, List.countP_cons]
    rw [countSkip_append, countSkip_checkFile, ih]
    cases h : matchExcluded exSpec fp <;> simp [h, Nat.add_comm]

theorem countSkip_removeFiles (users : List String) (exSpec : Option (String → Bool))
    (eo : String → Bool) (fps : List String) :
    countSkip (removeFiles users exSpec eo fps)
      = List.countP (fun q => matchExcluded exSpec q) fps := by
  induction fps with
  | nil => simp [removeFiles, countSkip]
  | cons fp rest ih =>
    simp only [removeFiles, List.countP_cons]
    rw [countSkip_append, countSkip_removeFile, ih]
    cases h : matchExcluded exSpec fp <;> simp [h, Nat.add_comm]

theorem skip_mem_checkFile (users : List String) (exSpec : Option (String → Bool))
    (eo : String → Bool) (fp p : String)
    (h : LogEvent.skipExcluded p ∈ (checkFile users exSpec eo fp).2) :
    matchExcluded exSpec fp = true := by
  cases h1 : matchExcluded exSpec fp <;> cases h2 : eo fp <;>
    cases h3 : hasPermissions users fp <;> simp [checkFile, h1, h2, h3] at h ⊢

theorem skip_mem_removeFile (users : List String) (exSpec : Option (String → Bool))
    (eo : String → Bool) (fp p : String)
    (h : LogEvent.skipExcluded p ∈ removeFile users exSpec eo fp) :
    matchExcluded exSpec fp = true := by
  cases h1 : matchExcluded exSpec fp <;> cases h2 : eo fp <;>
    cases h3 : hasPermissions users fp <;> simp [removeFile, h1, h2, h3] at h ⊢

theorem actedPaths_append (a b : List LogEvent) :
    actedPaths (a ++ b) = actedPaths a ++ actedPaths b := by
  simp [actedPaths, List.filterMap_append]

theorem actedPaths_removeFile (users : List String) (exSpec : Option (String → Bool))
    (eo : String → Bool) (fp : String) :
    actedPaths (removeFile users exSpec eo fp) = (checkFile users exSpec eo fp).1 := by
  cases h1 : matchExcluded exSpec fp <;> cases h2 : eo fp <;>
    cases h3 : hasPermissions users fp <;>
      simp [removeFile, checkFile, actedPaths, h1, h2, h3]

theorem actedPaths_removeFiles (users : List String) (exSpec : Option (String → Bool))
    (eo : String → Bool) (fps : List String) :
    actedPaths (removeFiles users exSpec eo fps) = (checkFiles users exSpec eo fps).1 := by
  induction fps with
  | nil => simp [removeFiles, checkFiles, actedPaths]
  | cons fp rest ih =>
    simp only [removeFiles, checkFiles, pairApp]
    rw [actedPaths_append, actedPaths_removeFile, ih]

theorem mem_actedPaths (evs : List LogEvent) (us : List String) (p : String)
    (h : LogEvent.removing us p ∈ evs) : p ∈ actedPaths evs := by
  simp only [actedPaths, List.mem_filterMap]
  exact ⟨LogEvent.removing us p, h, rfl⟩

theorem checkFilesFS_eq (users : List String) (exSpec : Option (String → Bool))
    (eo : String → Bool) (fps : List String) (fs : FS) :
    checkFilesFS users exSpec eo fps fs = (checkFiles users exSpec eo fps, fs) := by
  induction fps with
  | nil => rfl
  | cons fp rest ih => simp [checkFilesFS, checkFiles, ih]

theorem removeFilesFS_eq (users : List String) (exSpec : Option (String → Bool))
    (eo : String → Bool) (fps : List String) (fs : FS) :
    removeFilesFS users exSpec eo fps fs = (removeFiles users exSpec eo fps, fs) := by
  induction fps with
  | nil => rfl
  | cons fp rest ih => simp [removeFilesFS, removeFiles, ih]

theorem walkFiles_append (a b : List (String × List String)) :
    walkFiles (a ++ b) = walkFiles a ++ walkFiles b := by
  induction a with
  | nil => rfl
  | cons h t ih =>
    simp [walkFiles] at ih ⊢
    simp [ih]

mutual
theorem walk_dfs (top : String) (t : Tree) : walkFiles (walk top t) = dfsPaths top t := by
  cases t with
  | node files sub =>
    simp [walk, dfsPaths, walkFiles]
    have h := walkForest_dfs top sub
    simp [walkFiles] at h
    simp [h]
theorem walkForest_dfs (top : String) (f : Forest) :
    walkFiles (walkForest top f) = dfsForest top f := by
  cases f with
  | fnil => rfl
  | fcons n t rest =>
    rw [walkForest, walkFiles_append, walk_dfs, walkForest_dfs, dfsForest]
end

/-! ## Claims -/

/-- Claim C1 (evaluation of the code at the failing input): with revoked
user `alice` and the tree of `fsAlice`, the removal pass leaves the
filesystem — in particular the targeted grant on `r/alice.txt` —
completely unchanged, it merely announces a removal; and running it a
second time on the unchanged filesystem announces the very same removal
again instead of reporting a not-found outcome (the code has no
remediation outcomes at all, its `os.chmod` call is commented out). -/
theorem remove_pass_leaves_grants_and_repeats :
    (removePermissionsFS fsAlice "r" ["alice"] none noErr).2 = fsAlice
    ∧ (removePermissionsFS fsAlice "r" ["alice"] none noErr).2.perms "r/alice.txt"
        = [("alice", "owner")]
    ∧ (removePermissionsFS fsAlice "r" ["alice"] none noErr).1
        = [LogEvent.removing ["alice"] "r/alice.txt"]
    ∧ (removePermissionsFS (removePermissionsFS fsAlice "r" ["alice"] none noErr).2
         "r" ["alice"] none noErr).1
        = [LogEvent.removing ["alice"] "r/alice.txt"] := by
  refine ⟨rfl, ?_, ?_, ?_⟩ <;> rfl

/-- Claim C2 (evaluation of the code at the failing input): the permission
test of lines 150/182 matches identity `Alice` against
`/home/malice/report.txt` — the identity differs in letter case from every
part of the path and occurs only as a substring of the unrelated component
`malice` — and matches `bob` against `/srv/bobsled/data.txt`; the audit
pass therefore reports such a file.  The check is a case-insensitive
substring test on the whole path, not a case-sensitive comparison against
the entry's principal. -/
theorem placeholder_match_is_case_insensitive_substring :
    hasPermissions ["Alice"] "/home/malice/report.txt" = true
    ∧ hasPermissions ["bob"] "/srv/bobsled/data.txt" = true
    ∧ (checkFiles ["Alice"] none noErr ["/home/malice/report.txt"]).1
        = ["/home/malice/report.txt"] := by
  refine ⟨?_, ?_, ?_⟩ <;> rfl

/-- Claim C3: an error raised while processing one entry contributes only
an error log event for that entry; the entries before and after it are
processed exactly as they would be on their own, in both the audit and
the removal pass.  A setup error — unreadable user file, or unreadable
exclude file — makes `main` exit with the untouched filesystem before
any entry is processed. -/
theorem per_entry_error_continues_setup_error_aborts :
    (∀ (users : List String) (exSpec : Option (String → Bool)) (eo : String → Bool)
        (pre post : List String) (fp : String),
        eo fp = true → matchExcluded exSpec fp = false →
        checkFiles users exSpec eo (pre ++ fp :: post)
          = pairApp (checkFiles users exSpec eo pre)
              (pairApp ([], [LogEvent.checkError fp])
                (checkFiles users exSpec eo post)))
    ∧ (∀ (users : List String) (exSpec : Option (String → Bool)) (eo : String → Bool)
        (pre post : List String) (fp : String),
        eo fp = true → matchExcluded exSpec fp = false →
        removeFiles users exSpec eo (pre ++ fp :: post)
          = removeFiles users exSpec eo pre
              ++ LogEvent.removeError fp :: removeFiles users exSpec eo post)
    ∧ (∀ (compile : List String → String → Bool) (w : World) (a : Args),
        w.readLines a.usersFile = none →
        mainRun compile w a = MainResult.exitSetup w.fs)
    ∧ (∀ (compile : List String → String → Bool) (w : World) (a : Args) (ef : String),
        a.excludeFile = some ef → w.readLines ef = none →
        mainRun compile w a = MainResult.exitSetup w.fs) := by
  refine ⟨?_, ?_, ?_, ?_⟩
  · intro users exSpec eo pre post fp heo hex
    rw [checkFiles_append]
    congr 1
    simp [checkFiles, checkFile, hex, heo]
  · intro users exSpec eo pre post fp heo hex
    rw [removeFiles_append]
    congr 1
    simp [removeFiles, removeFile, hex, heo]
  · intro compile w a h
    simp [mainRun, loadUsers, h]
  · intro compile w a ef hef h
    cases hu : w.readLines a.usersFile with
    | none => simp [mainRun, loadUsers, hu]
    | some ls => simp [mainRun, loadUsers, loadExcludes, hu, hef, h]

/-- Concrete instantiation of every part of
`per_entry_error_continues_setup_error_aborts`. -/
theorem per_entry_error_continues_witness :
    checkFiles ["alice"] none eoX (["r/alice.txt"] ++ "r/err.txt" :: ["r/b.txt"])
      = pairApp (checkFiles ["alice"] none eoX ["r/alice.txt"])
          (pairApp ([], [LogEvent.checkError "r/err.txt"])
            (checkFiles ["alice"] none eoX ["r/b.txt"]))
    ∧ removeFiles ["alice"] none eoX (["r/alice.txt"] ++ "r/err.txt" :: ["r/b.txt"])
      = removeFiles ["alice"] none eoX ["r/alice.txt"]
          ++ LogEvent.removeError "r/err.txt" :: removeFiles ["alice"] none eoX ["r/b.txt"]
    ∧ mainRun (fun _ _ => false) worldNoUsers argsPlain
        = MainResult.exitSetup worldNoUsers.fs
    ∧ mainRun (fun _ _ => false) worldExcludeBad argsExclude
        = MainResult.exitSetup worldExcludeBad.fs :=
  ⟨per_entry_error_continues_setup_error_aborts.1 _ _ _ _ _ _ rfl rfl,
   per_entry_error_continues_setup_error_aborts.2.1 _ _ _ _ _ _ rfl rfl,
   per_entry_error_continues_setup_error_aborts.2.2.1 _ _ _ rfl,
   per_entry_error_continues_setup_error_aborts.2.2.2 _ _ _ _ rfl rfl⟩

/-- Claim C4: a path matched by the exclusion spec is absent from the
audit pass's matched list, its grant check never runs, no removal is
announced for it, and every excluded occurrence is counted by the skip
events of both passes (the run's record of exclusions). -/
theorem excluded_path_unmatched_unscanned_counted :
    ∀ (users : List String) (exSpec : Option (String → Bool)) (eo : String → Bool)
      (fps : List String) (fp : String),
      fp ∈ fps → matchExcluded exSpec fp = true →
      ¬ fp ∈ (checkFiles users exSpec eo fps).1
      ∧ scansGrants exSpec fp = false
      ∧ countSkip (checkFiles users exSpec eo fps).2
          = List.countP (fun q => matchExcluded exSpec q) fps
      ∧ 0 < countSkip (checkFiles users exSpec eo fps).2
      ∧ ¬ LogEvent.removing users fp ∈ removeFiles users exSpec eo fps
      ∧ countSkip (removeFiles users exSpec eo fps)
          = List.countP (fun q => matchExcluded exSpec q) fps := by
  intro users exSpec eo fps fp hmem hex
  refine ⟨?_, ?_, countSkip_checkFiles _ _ _ _, ?_, ?_, countSkip_removeFiles _ _ _ _⟩
  · intro h
    have h2 := (mem_checkFiles_fst _ _ _ _ _ h).2
    rw [hex] at h2
    exact Bool.noConfusion h2
  · simp [scansGrants, hex]
  · rw [countSkip_checkFiles]
    exact List.countP_pos_iff.mpr ⟨fp, hmem, hex⟩
  · intro h
    have hp := mem_actedPaths _ _ _ h
    rw [actedPaths_removeFiles] at hp
    have h2 := (mem_checkFiles_fst _ _ _ _ _ hp).2
    rw [hex] at h2
    exact Bool.noConfusion h2

/-- Concrete instantiation of `excluded_path_unmatched_unscanned_counted`
at the excluded path `r/skip.tmp`. -/
theorem excluded_path_witness :
    ¬ "r/skip.tmp" ∈ (checkFiles ["alice"] exTmp noErr ["r/skip.tmp", "r/alice.txt"]).1
    ∧ scansGrants exTmp "r/skip.tmp" = false
    ∧ countSkip (checkFiles ["alice"] exTmp noErr ["r/skip.tmp", "r/alice.txt"]).2
        = List.countP (fun q => matchExcluded exTmp q) ["r/skip.tmp", "r/alice.txt"]
    ∧ 0 < countSkip (checkFiles ["alice"] exTmp noErr ["r/skip.tmp", "r/alice.txt"]).2
    ∧ ¬ LogEvent.removing ["alice"] "r/skip.tmp"
        ∈ removeFiles ["alice"] exTmp noErr ["r/skip.tmp", "r/alice.txt"]
    ∧ countSkip (removeFiles ["alice"] exTmp noErr ["r/skip.tmp", "r/alice.txt"])
        = List.countP (fun q => matchExcluded exTmp q) ["r/skip.tmp", "r/alice.txt"] :=
  excluded_path_unmatched_unscanned_counted ["alice"] exTmp noErr _ _
    (List.mem_cons_self _ _) rfl

/-- Claim C5: with no exclusion spec loaded the exclusion guard is false
for every path, neither pass ever emits an excluded-path skip event, and
`main` with no exclude file hands the passes an absent spec. -/
theorem no_exclude_spec_skips_nothing :
    (∀ p, matchExcluded none p = false)
    ∧ (∀ (users : List String) (eo : String → Bool) (fps : List String) (p : String),
        ¬ LogEvent.skipExcluded p ∈ (checkFiles users none eo fps).2)
    ∧ (∀ (users : List String) (eo : String → Bool) (fps : List String) (p : String),
        ¬ LogEvent.skipExcluded p ∈ removeFiles users none eo fps)
    ∧ (∀ (compile : List String → String → Bool) (w : World) (a : Args)
        (users : List String),
        a.excludeFile = none → loadUsers w a.usersFile = some users →
        mainRun compile w a = mainAfterSetup w a users none) := by
  refine ⟨fun p => rfl, ?_, ?_, ?_⟩
  · intro users eo fps p
    induction fps with
    | nil => simp [checkFiles]
    | cons fp rest ih =>
      simp only [checkFiles, pairApp, List.mem_append]
      intro h
      rcases h with h | h
      · exact Bool.noConfusion (skip_mem_checkFile _ _ _ _ _ h)
      · exact ih h
  · intro users eo fps p
    induction fps with
    | nil => simp [removeFiles]
    | cons fp rest ih =>
      simp only [removeFiles, List.mem_append]
      intro h
      rcases h with h | h
      · exact Bool.noConfusion (skip_mem_removeFile _ _ _ _ _ h)
      · exact ih h
  · intro compile w a users hex hu
    simp [mainRun, hu, hex]

/-- Concrete instantiation of every part of `no_exclude_spec_skips_nothing`. -/
theorem no_exclude_spec_witness :
    matchExcluded none "r/alice.txt" = false
    ∧ ¬ LogEvent.skipExcluded "r/alice.txt"
        ∈ (checkFiles ["alice"] none noErr ["r/alice.txt", "r/other.txt"]).2
    ∧ ¬ LogEvent.skipExcluded "r/alice.txt"
        ∈ removeFiles ["alice"] none noErr ["r/alice.txt", "r/other.txt"]
    ∧ mainRun (fun _ _ => false) worldUsersOk argsPlain
        = mainAfterSetup worldUsersOk argsPlain ["alice"] none :=
  ⟨no_exclude_spec_skips_nothing.1 _,
   no_exclude_spec_skips_nothing.2.1 _ _ _ _,
   no_exclude_spec_skips_nothing.2.2.1 _ _ _ _,
   no_exclude_spec_skips_nothing.2.2.2 _ _ _ _ rfl rfl⟩

/-- Claim C6: every path in the audit pass's matched list is a path the
traversal visited — matches never exceed the scanned entries. -/
theorem matched_subset_of_traversal :
    ∀ (fs : FS) (directory : String) (users : List String)
      (exSpec : Option (String → Bool)) (eo : String → Bool) (p : String),
      p ∈ (checkPermissionsFS fs directory users exSpec eo).1.1 →
      p ∈ walkFiles (walk directory fs.tree) := by
  intro fs directory users exSpec eo p h
  rw [checkPermissionsFS, checkFilesFS_eq] at h
  exact (mem_checkFiles_fst _ _ _ _ _ h).1

/-- Concrete instantiation of `matched_subset_of_traversal`: the reported
match `r/alice.txt` is among the visited paths of `fsAlice`. -/
theorem matched_subset_witness :
    "r/alice.txt" ∈ walkFiles (walk "r" fsAlice.tree) :=
  matched_subset_of_traversal fsAlice "r" ["alice"] none noErr "r/alice.txt" (by decide)

/-- Claim C7: whenever the target root is not (an existing) directory,
`main` exits with the setup-failure outcome, which carries the untouched
filesystem and, by its shape, no matched files and no traversal events:
no entry is inspected or modified.  This holds whatever else the world
contains, because every earlier setup failure exits the same way. -/
theorem invalid_root_fails_fast :
    ∀ (compile : List String → String → Bool) (w : World) (a : Args),
      w.isDir a.directory = false →
      mainRun compile w a = MainResult.exitSetup w.fs := by
  intro compile w a h
  cases hu : w.readLines a.usersFile with
  | none => simp [mainRun, loadUsers, hu]
  | some ls =>
    cases hef : a.excludeFile with
    | none => simp [mainRun, loadUsers, hu, hef, mainAfterSetup, h]
    | some ef =>
      cases hx : w.readLines ef with
      | none => simp [mainRun, loadUsers, loadExcludes, hu, hef, hx]
      | some ls2 =>
        simp [mainRun, loadUsers, loadExcludes, hu, hef, hx, mainAfterSetup, h]

/-- Concrete instantiation of `invalid_root_fails_fast`. -/
theorem invalid_root_witness :
    mainRun (fun _ _ => false) worldNoDir argsPlain
      = MainResult.exitSetup worldNoDir.fs :=
  invalid_root_fails_fast _ _ _ rfl

/-- Claim C8 (counterexample): a directory whose operating-system
enumeration order lists `b.txt` before `a.txt` is visited in exactly that
order, which differs from the name-sorted order `a.txt`, `b.txt`; so the
code does not visit children in a name-sorted order. -/
theorem walk_order_not_name_sorted :
    walkFiles (walk "r" (Tree.node ["b.txt", "a.txt"] Forest.fnil))
      = ["r/b.txt", "r/a.txt"]
    ∧ (walkFiles (walk "r" (Tree.node ["b.txt", "a.txt"] Forest.fnil))
        == ["r/a.txt", "r/b.txt"]) = false := by
  exact ⟨rfl, rfl⟩

/-- Claim C8 (amended): the traversal visits file paths in exactly the
operating system's enumeration order — each directory's files first, in
enumeration order, then the subdirectories' contents depth-first in
enumeration order — with no sorting applied; two traversals of an
unchanged tree coincide only because this enumeration-order traversal is
deterministic, not because the order is name-sorted. -/
theorem visit_order_is_enumeration_order :
    ∀ (top : String) (t : Tree), walkFiles (walk top t) = dfsPaths top t := by
  intro top t
  exact walk_dfs top t

/-- Claim C9: the audit pass returns the filesystem unchanged — its only
outputs are the matched-path list and the log events, and the matched
list is a pure function of the visited paths, users, exclusion spec and
error oracle. -/
theorem audit_pass_leaves_filesystem_unchanged :
    ∀ (fs : FS) (directory : String) (users : List String)
      (exSpec : Option (String → Bool)) (eo : String → Bool),
      (checkPermissionsFS fs directory users exSpec eo).2 = fs
      ∧ (checkPermissionsFS fs directory users exSpec eo).1
          = checkFiles users exSpec eo (walkFiles (walk directory fs.tree)) := by
  intro fs directory users exSpec eo
  rw [checkPermissionsFS, checkFilesFS_eq]
  exact ⟨rfl, rfl⟩

/-- Claim C10: the removal pass announces a removal for exactly the paths
the audit pass reports, in the same order: both passes walk the same
paths and apply the same exclusion guard and the same permission test
per file. -/
theorem removal_targets_equal_audit_matches :
    ∀ (fs : FS) (directory : String) (users : List String)
      (exSpec : Option (String → Bool)) (eo : String → Bool),
      actedPaths (removePermissionsFS fs directory users exSpec eo).1
        = (checkPermissionsFS fs directory users exSpec eo).1.1 := by
  intro fs directory users exSpec eo
  rw [removePermissionsFS, checkPermissionsFS, removeFilesFS_eq, checkFilesFS_eq]
  exact actedPaths_removeFiles _ _ _ _

end PA
